import Mathlib

/-!
Verification of the worker-pool repository (package `workerpool`).

Shallow embedding conventions:
* Go strings are modelled as `List Char`.  The source compares byte slices
  (`errorMsg[:len(sig)] == sig`); for valid UTF-8 strings a byte-level prefix
  match succeeds exactly when the character-level prefix match does, so the
  `List Char` model is faithful.
* `time.Duration` is `int64` nanoseconds, modelled as `Int` (the values used
  here are far from the 2^63 boundary, so wrap-around is not modelled).
* `float64` arithmetic in `CalculateRetryDelay` and the statistics averages is
  modelled as exact rational arithmetic (`ℚ`); the Go conversion
  `time.Duration(f)` truncates toward zero, modelled by `goTrunc`.
* Go `error` values are modelled as `Option GoStr` (`none` = `nil`,
  `some msg` = an error whose `Error()` description is `msg`).
* Channels and wall-clock time are abstracted: the fullness of the bounded
  retry queue at a given execution step is an explicit boolean input, and the
  time-stamp/duration fields that only ever hold clock readings are either
  dropped or passed through as data.
-/

namespace Workerpool

/-- Go strings, as lists of characters. -/
abbrev GoStr := List Char

/-- `type TaskType string` (task.go). -/
abbrev TaskType := GoStr

/-- The four task-type constants declared in task.go. -/
def TaskTypeEmail : TaskType := "email".data

def TaskTypeImage : TaskType := "image".data

def TaskTypeDatabase : TaskType := "database".data

def TaskTypeReport : TaskType := "report".data

/-- `RetryPolicy` (retry.go).  `InitialDelay` and `MaxDelay` are
`time.Duration` = int64 nanoseconds; `BackoffFactor` is a float64, modelled
as a rational. -/
structure RetryPolicy where
  MaxRetries : Int
  InitialDelay : Int
  MaxDelay : Int
  BackoffFactor : ℚ
  RetryableErrors : List GoStr

/-- `DefaultRetryPolicy` (retry.go). `1 * time.Second = 10^9` ns. -/
def DefaultRetryPolicy : RetryPolicy :=
  { MaxRetries := 3
    InitialDelay := 1000000000
    MaxDelay := 30000000000
    BackoffFactor := 2
    RetryableErrors :=
      ["SMTP接続エラー".data, "データベース接続エラー".data,
       "context deadline exceeded".data] }

/-- `TaskTypeRetryPolicies` (retry.go): the seeded per-category policy map,
modelled as a partial lookup function (`none` = key absent from the map). -/
def TaskTypeRetryPolicies : TaskType → Option RetryPolicy := fun tt =>
  if tt = TaskTypeEmail then
    some { MaxRetries := 5
           InitialDelay := 2000000000
           MaxDelay := 60000000000
           BackoffFactor := 2
           RetryableErrors := ["SMTP接続エラー".data] }
  else if tt = TaskTypeImage then
    some { MaxRetries := 2
           InitialDelay := 5000000000
           MaxDelay := 30000000000
           BackoffFactor := 3 / 2
           RetryableErrors := [] }
  else if tt = TaskTypeDatabase then
    some { MaxRetries := 4
           InitialDelay := 1000000000
           MaxDelay := 20000000000
           BackoffFactor := 5 / 2
           RetryableErrors := ["データベース接続エラー".data,
                               "context deadline exceeded".data] }
  else if tt = TaskTypeReport then
    some { MaxRetries := 3
           InitialDelay := 10000000000
           MaxDelay := 120000000000
           BackoffFactor := 2
           RetryableErrors := ["データ不整合エラー".data] }
  else
    none

/-- Go's `int64(f)` conversion from float64: truncation toward zero
(T-division of the rational's numerator by its denominator). -/
def goTrunc (q : ℚ) : Int :=
  q.num.tdiv q.den

/-- `RetryPolicy.CalculateRetryDelay` (retry.go):
`delay := float64(rp.InitialDelay) * (rp.BackoffFactor * float64(attemptCount))`,
converted to `time.Duration` and clamped to `MaxDelay` from above. -/
def RetryPolicy.CalculateRetryDelay (rp : RetryPolicy) (attemptCount : Int) : Int :=
  if attemptCount ≤ 0 then
    rp.InitialDelay
  else
    let delay : ℚ := (rp.InitialDelay : ℚ) * (rp.BackoffFactor * (attemptCount : ℚ))
    let delayDuration : Int := goTrunc delay
    if rp.MaxDelay < delayDuration then rp.MaxDelay else delayDuration

/-- `RetryPolicy.ShouldRetry` (retry.go).  The Go loop over
`rp.RetryableErrors` returns true at the first signature that is non-empty,
no longer than the message, and equal to the message's leading slice. -/
def RetryPolicy.ShouldRetry (rp : RetryPolicy) (err : Option GoStr)
    (attemptCount : Int) : Bool :=
  match err with
  | none => false
  | some errorMsg =>
    if rp.MaxRetries ≤ attemptCount then
      false
    else
      rp.RetryableErrors.any fun retryableError =>
        decide (0 < retryableError.length) &&
        decide (retryableError.length ≤ errorMsg.length) &&
        (errorMsg.take retryableError.length == retryableError)

/-- `Task` (task.go).  `Payload` is opaque and unused by the engine;
`CreatedAt`/`FirstAttempt` only ever hold clock readings, so the wall-clock
fields are not modelled. -/
structure Task where
  ID : Int
  Name : GoStr
  «Type» : TaskType
  AttemptCount : Int
  MaxRetries : Int
  LastError : Option GoStr
deriving DecidableEq

/-- `TaskResult` (result.go).  `Duration`/`TotalDuration` are int64
nanoseconds carried as data; the `StartTime`/`EndTime` clock stamps are not
modelled. -/
structure TaskResult where
  TaskID : Int
  TaskName : GoStr
  TaskType : TaskType
  Success : Bool
  Error : Option GoStr
  Duration : Int
  TotalDuration : Int
  WorkerID : Int
  AttemptCount : Int
  IsFinal : Bool
deriving DecidableEq

/-- `TaskResult.WasRetried` (result.go): `tr.AttemptCount > 1`. -/
def TaskResult.WasRetried (tr : TaskResult) : Bool :=
  1 < tr.AttemptCount

/-- The worker-pool state consulted by `executeTask` (worker_pool.go): the
processor registry and the retry-policy map, both Go maps modelled as partial
lookup functions.  A registered processor is abstracted as a function from
the task (whose `AttemptCount` distinguishes the successive attempts) to the
outcome of one invocation (`none` = success, `some msg` = error).  Channels,
wait groups and the timeout are not part of the per-task decision logic: a
handler that exceeds the deadline is a handler invocation returning the
`context deadline exceeded` error. -/
structure WorkerPool where
  processors : TaskType → Option (Task → Option GoStr)
  retryPolicies : TaskType → Option RetryPolicy

/-- What a single `executeTask` call does with the task: either a
`TaskResult` is sent on the results channel, or the task is pushed onto the
retry queue. -/
inductive ExecOutcome where
  | emit (r : TaskResult)
  | retryEnqueued (t : Task)
deriving DecidableEq

/-- `WorkerPool.sendResult` (worker_pool.go): builds the `TaskResult` from
the task, the error and the `isFinal` flag; `AttemptCount` is
`task.AttemptCount + 1` and `Success` is `err == nil`. -/
def WorkerPool.sendResult (task : Task) (err : Option GoStr)
    (duration totalDuration : Int) (workerID : Int) (isFinal : Bool) : TaskResult :=
  { TaskID := task.ID
    TaskName := task.Name
    TaskType := task.«Type»
    Success := err.isNone
    Error := err
    Duration := duration
    TotalDuration := totalDuration
    WorkerID := workerID
    AttemptCount := task.AttemptCount + 1
    IsFinal := isFinal }

/-- The error message synthesized by `executeTask` when no processor is
registered for the task's type:
`fmt.Errorf("タスクタイプ %s のプロセッサが登録されていません", task.«Type»)`. -/
def unregisteredMsg (tt : TaskType) : GoStr :=
  "タスクタイプ ".data ++ tt ++ " のプロセッサが登録されていません".data

/-- The retry policy `executeTask` and `retryHandler` use for a task type:
the map entry when present, `DefaultRetryPolicy` otherwise. -/
def WorkerPool.effectivePolicy (wp : WorkerPool) (tt : TaskType) : RetryPolicy :=
  (wp.retryPolicies tt).getD DefaultRetryPolicy

/-- `WorkerPool.executeTask` (worker_pool.go), one worker step on one task.
`full` models whether the non-blocking send `wp.retryQueue <- task` would hit
the `default` branch (retry queue full) at this step.  The measured
`duration`/`totalDuration` are clock differences, passed to `sendResult` as
zero here since no claim depends on them. -/
def WorkerPool.executeTask (wp : WorkerPool) (full : Bool) (task : Task)
    (workerID : Int) : ExecOutcome :=
  let err : Option GoStr :=
    match wp.processors task.«Type» with
    | none => some (unregisteredMsg task.«Type»)
    | some processor => processor task
  match err with
  | some e =>
    let policy := wp.effectivePolicy task.«Type»
    if policy.ShouldRetry (some e) task.AttemptCount then
      let task' : Task :=
        { task with AttemptCount := task.AttemptCount + 1, LastError := some e }
      if full then
        ExecOutcome.emit (WorkerPool.sendResult task' (some e) 0 0 workerID false)
      else
        ExecOutcome.retryEnqueued task'
    else
      ExecOutcome.emit (WorkerPool.sendResult task (some e) 0 0 workerID true)
  | none =>
    ExecOutcome.emit (WorkerPool.sendResult task none 0 0 workerID true)

/-- The number of handler invocations performed by one `executeTask` call:
one when a processor is registered for the type, zero otherwise. -/
def WorkerPool.invocations (wp : WorkerPool) (task : Task) : Nat :=
  if (wp.processors task.«Type»).isSome then 1 else 0

/-- A task's whole retry lineage: run `executeTask` steps, feeding a task
pushed onto the retry queue back through the retry dispatcher (which
re-submits it unchanged to the task queue).  `fulls i` tells whether the
retry queue is full at the i-th step; the returned `Nat` counts handler
invocations across the lineage.  `fuel` bounds the number of steps
(`none` = the lineage did not terminate within `fuel` steps). -/
def WorkerPool.runTask (wp : WorkerPool) (fulls : Nat → Bool) (workerID : Int) :
    Nat → Nat → Task → Option (TaskResult × Nat)
  | 0, _, _ => none
  | fuel + 1, i, task =>
    match wp.executeTask (fulls i) task workerID with
    | ExecOutcome.emit r => some (r, wp.invocations task)
    | ExecOutcome.retryEnqueued t' =>
      match wp.runTask fulls workerID fuel (i + 1) t' with
      | none => none
      | some (r, n) => some (r, wp.invocations task + n)

/-- Projection used to state properties of `executeTask`: the result it sent,
if any (`none` when the task was routed to the retry queue instead). -/
def emittedResult : ExecOutcome → Option TaskResult
  | ExecOutcome.emit r => some r
  | ExecOutcome.retryEnqueued _ => none

/-- `TaskTypeStats` (monitor.go): per-category counters, int64; `AvgTime` is
a float64 of milliseconds, modelled as `ℚ`. -/
structure TaskTypeStats where
  Total : Int
  Succeeded : Int
  Failed : Int
  Retried : Int
  AvgTime : ℚ
deriving DecidableEq

/-- The zero value of `TaskTypeStats`, which a Go map read returns for an
absent key. -/
def zeroTaskTypeStats : TaskTypeStats :=
  { Total := 0, Succeeded := 0, Failed := 0, Retried := 0, AvgTime := 0 }

/-- `PoolStats` (monitor.go).  The `TaskTypeStats` map is modelled as a total
function (a key the map does not hold maps to the Go zero value, exactly what
a Go map read yields).  `Uptime`/`LastUpdated` only hold clock readings and
are not modelled. -/
structure PoolStats where
  TotalTasks : Int
  CompletedTasks : Int
  FailedTasks : Int
  ActiveTasks : Int
  QueuedTasks : Int
  RetryingTasks : Int
  TotalWorkers : Int
  ActiveWorkers : Int
  IdleWorkers : Int
  AverageTime : ℚ
  MinTime : ℚ
  MaxTime : ℚ
  TaskTypeStats : TaskType → TaskTypeStats

/-- The aggregate held by a fresh `NewMonitor`: every counter zero, the
per-category map empty (zero value at every key). -/
def initPoolStats : PoolStats :=
  { TotalTasks := 0, CompletedTasks := 0, FailedTasks := 0
    ActiveTasks := 0, QueuedTasks := 0, RetryingTasks := 0
    TotalWorkers := 0, ActiveWorkers := 0, IdleWorkers := 0
    AverageTime := 0, MinTime := 0, MaxTime := 0
    TaskTypeStats := fun _ => zeroTaskTypeStats }

/-- `float64(result.TotalDuration.Nanoseconds()) / 1e6` (monitor.go). -/
def timeMsOf (result : TaskResult) : ℚ :=
  (result.TotalDuration : ℚ) / 1000000

/-- `Monitor.updateStats` (monitor.go), the fold of one result into the
aggregate.  Mirrors the source statement by statement: the global counters,
then min/max/average (seeded on the first result), then the per-category
entry (read with the zero value, written back after the update). -/
def Monitor.updateStats (stats : PoolStats) (result : TaskResult) : PoolStats :=
  let totalTasks := stats.TotalTasks + 1
  let timeMs := timeMsOf result
  let typeStats := stats.TaskTypeStats result.TaskType
  let typeTotal := typeStats.Total + 1
  { stats with
    TotalTasks := totalTasks
    CompletedTasks :=
      if result.Success then stats.CompletedTasks + 1 else stats.CompletedTasks
    FailedTasks :=
      if result.Success then stats.FailedTasks else stats.FailedTasks + 1
    MinTime :=
      if totalTasks = 1 then timeMs
      else if timeMs < stats.MinTime then timeMs else stats.MinTime
    MaxTime :=
      if totalTasks = 1 then timeMs
      else if stats.MaxTime < timeMs then timeMs else stats.MaxTime
    AverageTime :=
      if totalTasks = 1 then timeMs
      else (stats.AverageTime * ((totalTasks - 1 : Int) : ℚ) + timeMs) / ((totalTasks : Int) : ℚ)
    TaskTypeStats :=
      Function.update stats.TaskTypeStats result.TaskType
        { Total := typeTotal
          Succeeded :=
            if result.Success then typeStats.Succeeded + 1 else typeStats.Succeeded
          Failed :=
            if result.Success then typeStats.Failed else typeStats.Failed + 1
          Retried :=
            if result.WasRetried then typeStats.Retried + 1 else typeStats.Retried
          AvgTime :=
            if typeTotal = 1 then timeMs
            else (typeStats.AvgTime * ((typeTotal - 1 : Int) : ℚ) + timeMs) / ((typeTotal : Int) : ℚ) } }

/-- Folding a whole sequence of results into a fresh monitor's aggregate. -/
def Monitor.foldStats (results : List TaskResult) : PoolStats :=
  results.foldl Monitor.updateStats initPoolStats

/-- A heap of Go maps `map[TaskType]TaskTypeStats`, for the claims about map
aliasing: a map value in Go is a reference, modelled as an index into this
list, with `make` allocating a fresh index. -/
structure MapHeap where
  data : List (TaskType → TaskTypeStats)

/-- Reading the map a reference points to (arbitrary for dangling refs). -/
def MapHeap.read (h : MapHeap) (r : Nat) : TaskType → TaskTypeStats :=
  h.data.getD r (fun _ => zeroTaskTypeStats)

/-- `make(map[TaskType]TaskTypeStats)` followed by populating it: allocate a
fresh reference holding the given contents. -/
def MapHeap.alloc (h : MapHeap) (m : TaskType → TaskTypeStats) : Nat × MapHeap :=
  (h.data.length, ⟨h.data ++ [m]⟩)

/-- `m[t] = v`: insert or overwrite one entry of the map behind reference
`r`, in place. -/
def MapHeap.write (h : MapHeap) (r : Nat) (t : TaskType) (v : TaskTypeStats) : MapHeap :=
  ⟨h.data.set r (Function.update (h.read r) t v)⟩

/-- `PoolStats` as the monitor stores it, with the per-category map held by
reference (a Go map field is a reference); the scalar fields are the ones of
`PoolStats`. -/
structure PoolStatsRef where
  TotalTasks : Int
  CompletedTasks : Int
  FailedTasks : Int
  ActiveTasks : Int
  QueuedTasks : Int
  RetryingTasks : Int
  TotalWorkers : Int
  ActiveWorkers : Int
  IdleWorkers : Int
  AverageTime : ℚ
  MinTime : ℚ
  MaxTime : ℚ
  TaskTypeStats : Nat

/-- `Monitor.GetStats` (monitor.go): copy the struct (`stats := m.stats`),
replace its map field by a freshly made map (`make` + copy loop over the live
entries), and return it.  Returns the snapshot and the heap after the
allocation. -/
def Monitor.GetStats (h : MapHeap) (live : PoolStatsRef) : PoolStatsRef × MapHeap :=
  let copied := fun t => h.read live.TaskTypeStats t
  let alloced := h.alloc copied
  ({ live with TaskTypeStats := alloced.1 }, alloced.2)

/-! Concrete fixtures used by the witnesses and counterexamples below. -/

/-- A policy whose only retryable signature is the empty string. -/
def emptySigPolicy : RetryPolicy :=
  { MaxRetries := 1, InitialDelay := 0, MaxDelay := 0, BackoffFactor := 0,
    RetryableErrors := [[]] }

/-- A policy whose backoff factor is below one, so the delay shrinks from
attempt 0 to attempt 1. -/
def decreasingPolicy : RetryPolicy :=
  { MaxRetries := 3, InitialDelay := 4, MaxDelay := 10, BackoffFactor := 1 / 2,
    RetryableErrors := [] }

/-- A policy whose initial delay exceeds its maximum delay. -/
def highInitialPolicy : RetryPolicy :=
  { MaxRetries := 3, InitialDelay := 2, MaxDelay := 1, BackoffFactor := 2,
    RetryableErrors := [] }

/-- A pool whose email handler always fails with a retryable SMTP error,
under the seeded policies. -/
def failingEmailPool : WorkerPool :=
  { processors := fun tt =>
      if tt = TaskTypeEmail then some (fun _ => some ("SMTP接続エラー: 送信失敗".data))
      else none
    retryPolicies := TaskTypeRetryPolicies }

/-- A fresh email task (attempt count 0). -/
def emailTask : Task :=
  { ID := 1, Name := "t".data, «Type» := TaskTypeEmail, AttemptCount := 0,
    MaxRetries := 0, LastError := none }

/-- A policy whose retryable signature is a prefix of the synthesized
unregistered-category message. -/
def typePrefixPolicy : RetryPolicy :=
  { MaxRetries := 3, InitialDelay := 0, MaxDelay := 0, BackoffFactor := 0,
    RetryableErrors := ["タスクタイプ".data] }

/-- A pool with no registered processors where every type uses
`typePrefixPolicy`. -/
def noProcessorPool : WorkerPool :=
  { processors := fun _ => none
    retryPolicies := fun _ => some typePrefixPolicy }

/-- A task of a category nothing is registered for. -/
def strangeTask : Task :=
  { ID := 2, Name := [], «Type» := "x".data, AttemptCount := 0,
    MaxRetries := 0, LastError := none }

/-- A pool with no registered processors under the seeded policy table. -/
def seededNoProcPool : WorkerPool :=
  { processors := fun _ => none
    retryPolicies := TaskTypeRetryPolicies }

/-- A task of an unknown category (no processor, no seeded policy). -/
def videoTask : Task :=
  { ID := 3, Name := [], «Type» := "video".data, AttemptCount := 0,
    MaxRetries := 0, LastError := none }

/-- A successful result with a 5 ms total duration. -/
def sampleResult : TaskResult :=
  { TaskID := 1, TaskName := [], TaskType := TaskTypeEmail, Success := true,
    Error := none, Duration := 5000000, TotalDuration := 5000000, WorkerID := 0,
    AttemptCount := 1, IsFinal := true }

/-- A one-map heap. -/
def statsHeap0 : MapHeap := ⟨[fun _ => zeroTaskTypeStats]⟩

/-- A live aggregate whose map reference points into `statsHeap0`. -/
def liveStats0 : PoolStatsRef :=
  { TotalTasks := 7, CompletedTasks := 4, FailedTasks := 3
    ActiveTasks := 0, QueuedTasks := 0, RetryingTasks := 0
    TotalWorkers := 3, ActiveWorkers := 3, IdleWorkers := 0
    AverageTime := 5, MinTime := 1, MaxTime := 9
    TaskTypeStats := 0 }

/-! Claims about `RetryPolicy.ShouldRetry` (C1, C10). -/

/-- The loop body's boolean condition holds exactly for a non-empty signature
that is a character prefix of the message. -/
lemma signature_match_iff (sig msg : GoStr) :
    (decide (0 < sig.length) && decide (sig.length ≤ msg.length) &&
      (msg.take sig.length == sig)) = true ↔ sig ≠ [] ∧ sig <+: msg := by
  simp only [Bool.and_eq_true, decide_eq_true_eq, beq_iff_eq]
  constructor
  · rintro ⟨⟨hpos, hle⟩, htake⟩
    refine ⟨List.ne_nil_of_length_pos hpos, ?_⟩
    exact List.prefix_iff_eq_take.mpr htake.symm
  · rintro ⟨hne, hpre⟩
    have htake := List.prefix_iff_eq_take.mp hpre
    exact ⟨⟨List.length_pos.mpr hne, hpre.length_le⟩, htake.symm⟩

/-- When `ShouldRetry` answers true, some non-empty signature of the policy
is a prefix of the message. -/
lemma shouldRetry_true_matches (rp : RetryPolicy) (msg : GoStr) (k : Int)
    (h : rp.ShouldRetry (some msg) k = true) :
    ∃ sig ∈ rp.RetryableErrors, sig ≠ [] ∧ sig <+: msg := by
  rw [RetryPolicy.ShouldRetry] at h
  by_cases hle : rp.MaxRetries ≤ k
  · rw [if_pos hle] at h
    exact absurd h (by simp)
  · rw [if_neg hle, List.any_eq_true] at h
    obtain ⟨sig, hmem, hcond⟩ := h
    exact ⟨sig, hmem, (signature_match_iff sig msg).mp hcond⟩

/-- C1 (amended): `ShouldRetry` is false on a nil error; false once the
attempt count reaches `MaxRetries` regardless of the error text; and below
`MaxRetries` it is true exactly when the description begins with one of the
policy's NON-EMPTY retryable signatures (exact, case-sensitive prefix match,
so an interior-substring occurrence does not retry).  The claim as frozen
omits the non-emptiness condition, which the counterexample below refutes. -/
theorem shouldRetry_spec (rp : RetryPolicy) (msg : GoStr) (attemptCount : Int) :
    rp.ShouldRetry none attemptCount = false
    ∧ (rp.MaxRetries ≤ attemptCount → rp.ShouldRetry (some msg) attemptCount = false)
    ∧ (attemptCount < rp.MaxRetries →
        (rp.ShouldRetry (some msg) attemptCount = true ↔
          ∃ sig ∈ rp.RetryableErrors, sig ≠ [] ∧ sig <+: msg)) := by
  refine ⟨rfl, ?_, ?_⟩
  · intro h
    simp [RetryPolicy.ShouldRetry, if_pos h]
  · intro h
    rw [RetryPolicy.ShouldRetry]
    rw [if_neg (not_le.mpr h), List.any_eq_true]
    exact exists_congr fun sig => and_congr_right fun _ => signature_match_iff sig msg

/-- C1 counterexample: the empty string is a signature of `emptySigPolicy`
and is a prefix of the description "x", the error is non-nil and the attempt
count is below `MaxRetries`, yet `ShouldRetry` answers false — refuting the
frozen claim's "true iff the description begins with one of the policy's
retryable signatures". -/
theorem shouldRetry_spec_counterexample :
    emptySigPolicy.ShouldRetry (some ['x']) 0 = false
    ∧ ([] : GoStr) ∈ emptySigPolicy.RetryableErrors
    ∧ ([] : GoStr) <+: ['x']
    ∧ (0 : Int) < emptySigPolicy.MaxRetries := by
  exact ⟨by decide, by simp [emptySigPolicy], List.nil_prefix, by decide⟩

/-- Witness for C1: the default policy retries an error whose description
begins with its SMTP signature, at attempt 0. -/
theorem shouldRetry_spec_witness :
    (0 : Int) < DefaultRetryPolicy.MaxRetries
    ∧ DefaultRetryPolicy.ShouldRetry (some ("SMTP接続エラー: x".data)) 0 = true := by
  refine ⟨by decide, ?_⟩
  exact ((shouldRetry_spec DefaultRetryPolicy ("SMTP接続エラー: x".data) 0).2.2
    (by decide)).mpr ⟨"SMTP接続エラー".data, by simp [DefaultRetryPolicy], by decide,
      ⟨": x".data, by decide⟩⟩

/-- C10: a retry can only be authorized through a non-empty signature, and a
policy all of whose signatures are the empty string retries nothing — even
though the empty string is a prefix of every description. -/
theorem shouldRetry_nonempty_only :
    (∀ (rp : RetryPolicy) (msg : GoStr) (attemptCount : Int),
      rp.ShouldRetry (some msg) attemptCount = true →
        ∃ sig ∈ rp.RetryableErrors, sig ≠ [] ∧ sig <+: msg)
    ∧ (∀ rp : RetryPolicy, (∀ sig ∈ rp.RetryableErrors, sig = ([] : GoStr)) →
        ∀ (err : Option GoStr) (attemptCount : Int),
          rp.ShouldRetry err attemptCount = false) := by
  constructor
  · exact shouldRetry_true_matches
  · intro rp hall err attemptCount
    match err with
    | none => rfl
    | some msg =>
      rw [RetryPolicy.ShouldRetry]
      by_cases hle : rp.MaxRetries ≤ attemptCount
      · rw [if_pos hle]
      · rw [if_neg hle]
        rw [List.any_eq_false]
        intro sig hmem
        rw [hall sig hmem]
        simp

/-- Witness for C10: a concrete true answer is backed by a non-empty
signature, and the empty-signature-only policy declines a concrete error. -/
theorem shouldRetry_nonempty_only_witness :
    (∃ sig ∈ DefaultRetryPolicy.RetryableErrors,
      sig ≠ [] ∧ sig <+: "context deadline exceeded".data)
    ∧ emptySigPolicy.ShouldRetry (some ['a']) 0 = false := by
  exact ⟨shouldRetry_nonempty_only.1 DefaultRetryPolicy
      ("context deadline exceeded".data) 0 (by decide),
    shouldRetry_nonempty_only.2 emptySigPolicy (by decide) (some ['a']) 0⟩

/-! Claims about `RetryPolicy.CalculateRetryDelay` (C2, C5). -/

/-- For a positive rational, Go's toward-zero conversion agrees with the
floor. -/
lemma goTrunc_eq_floor (q : ℚ) (h : 0 ≤ q) : goTrunc q = ⌊q⌋ := by
  rw [goTrunc, Rat.floor_def,
    Int.tdiv_eq_ediv (Rat.num_nonneg.mpr h) (Int.natCast_nonneg q.den)]

/-- Monotonicity of the conversion on non-negative inputs. -/
lemma goTrunc_mono (a b : ℚ) (ha : 0 ≤ a) (hab : a ≤ b) :
    goTrunc a ≤ goTrunc b := by
  rw [goTrunc_eq_floor a ha, goTrunc_eq_floor b (ha.trans hab)]
  exact Int.floor_le_floor hab

/-- An integer lower bound survives the conversion. -/
lemma le_goTrunc (n : Int) (q : ℚ) (hq : 0 ≤ q) (h : (n : ℚ) ≤ q) :
    n ≤ goTrunc q := by
  rw [goTrunc_eq_floor q hq]
  exact Int.le_floor.mpr h

/-- On the non-positive branch the delay is the initial delay, uncapped. -/
lemma calculateRetryDelay_nonpos (rp : RetryPolicy) (k : Int) (h : k ≤ 0) :
    rp.CalculateRetryDelay k = rp.InitialDelay := by
  rw [RetryPolicy.CalculateRetryDelay, if_pos h]

/-- On the positive branch the delay is the converted product capped at
`MaxDelay`. -/
lemma calculateRetryDelay_pos (rp : RetryPolicy) (k : Int) (h : 0 < k) :
    rp.CalculateRetryDelay k =
      min rp.MaxDelay (goTrunc ((rp.InitialDelay : ℚ) * (rp.BackoffFactor * (k : ℚ)))) := by
  rw [RetryPolicy.CalculateRetryDelay, if_neg (not_le.mpr h)]
  rcases lt_or_le rp.MaxDelay
      (goTrunc ((rp.InitialDelay : ℚ) * (rp.BackoffFactor * (k : ℚ)))) with h' | h'
  · rw [if_pos h']
    exact (min_eq_left h'.le).symm
  · rw [if_neg (not_lt.mpr h')]
    exact (min_eq_right h').symm

/-- C2: `CalculateRetryDelay(attemptCount)` returns `InitialDelay` for
`attemptCount <= 0`, and otherwise
`InitialDelay * BackoffFactor * attemptCount` (converted to a duration by
truncation toward zero), capped at `MaxDelay`. -/
theorem calculateRetryDelay_formula (rp : RetryPolicy) (attemptCount : Int) :
    (attemptCount ≤ 0 → rp.CalculateRetryDelay attemptCount = rp.InitialDelay)
    ∧ (0 < attemptCount →
        rp.CalculateRetryDelay attemptCount =
          min rp.MaxDelay
            (goTrunc ((rp.InitialDelay : ℚ) *
              (rp.BackoffFactor * (attemptCount : ℚ))))) :=
  ⟨calculateRetryDelay_nonpos rp attemptCount, calculateRetryDelay_pos rp attemptCount⟩

/-- Witness for C2 at the default policy: attempt 0 yields the initial delay
and attempt 2 yields the capped product. -/
theorem calculateRetryDelay_formula_witness :
    ((0 : Int) ≤ 0 ∧ DefaultRetryPolicy.CalculateRetryDelay 0 = DefaultRetryPolicy.InitialDelay)
    ∧ ((0 : Int) < 2 ∧ DefaultRetryPolicy.CalculateRetryDelay 2 =
        min DefaultRetryPolicy.MaxDelay
          (goTrunc ((DefaultRetryPolicy.InitialDelay : ℚ) *
            (DefaultRetryPolicy.BackoffFactor * ((2 : Int) : ℚ))))) := by
  exact ⟨⟨le_refl 0, (calculateRetryDelay_formula DefaultRetryPolicy 0).1 (by decide)⟩,
    ⟨by decide, (calculateRetryDelay_formula DefaultRetryPolicy 2).2 (by decide)⟩⟩

/-- C5 (amended): for a policy with `0 <= InitialDelay <= MaxDelay` and
`BackoffFactor >= 1` — true of every seeded policy and the default —
`CalculateRetryDelay 0 = InitialDelay`, the delay never exceeds `MaxDelay`,
and it is non-decreasing on attempts `k >= 0`.  The frozen claim asserts this
for EVERY policy; the counterexample below shows both the monotonicity and
the cap fail without these side conditions, because the `attemptCount <= 0`
branch returns the initial delay uncapped and a backoff factor below one
shrinks the delay. -/
theorem calculateRetryDelay_monotone (rp : RetryPolicy) (k : Int)
    (h0 : 0 ≤ rp.InitialDelay) (h1 : rp.InitialDelay ≤ rp.MaxDelay)
    (h2 : 1 ≤ rp.BackoffFactor) :
    rp.CalculateRetryDelay 0 = rp.InitialDelay
    ∧ (0 ≤ k → rp.CalculateRetryDelay k ≤ rp.MaxDelay)
    ∧ (0 ≤ k → rp.CalculateRetryDelay k ≤ rp.CalculateRetryDelay (k + 1)) := by
  have hI : (0 : ℚ) ≤ (rp.InitialDelay : ℚ) := by exact_mod_cast h0
  have hB : (0 : ℚ) ≤ rp.BackoffFactor := le_trans zero_le_one h2
  refine ⟨calculateRetryDelay_nonpos rp 0 le_rfl, ?_, ?_⟩
  · intro hk
    by_cases hk0 : k ≤ 0
    · rw [calculateRetryDelay_nonpos rp k hk0]
      exact h1
    · rw [calculateRetryDelay_pos rp k (not_le.mp hk0)]
      exact min_le_left _ _
  · intro hk
    rcases eq_or_lt_of_le hk with heq | hpos
    · subst heq
      rw [calculateRetryDelay_nonpos rp 0 le_rfl, zero_add,
        calculateRetryDelay_pos rp 1 one_pos]
      refine le_min h1 ?_
      have hq : (rp.InitialDelay : ℚ) ≤
          (rp.InitialDelay : ℚ) * (rp.BackoffFactor * ((1 : Int) : ℚ)) := by
        push_cast
        nlinarith [hI, h2]
      exact le_goTrunc _ _ (hI.trans hq) hq
    · rw [calculateRetryDelay_pos rp k hpos,
        calculateRetryDelay_pos rp (k + 1) (by linarith)]
      have hk0 : (0 : ℚ) ≤ (k : ℚ) := by exact_mod_cast hk
      have hnn : (0 : ℚ) ≤ (rp.InitialDelay : ℚ) * (rp.BackoffFactor * (k : ℚ)) :=
        mul_nonneg hI (mul_nonneg hB hk0)
      have hstep : (rp.InitialDelay : ℚ) * (rp.BackoffFactor * (k : ℚ)) ≤
          (rp.InitialDelay : ℚ) * (rp.BackoffFactor * (((k : Int) + 1 : Int) : ℚ)) := by
        push_cast
        nlinarith [hI, hB, hk0]
      exact min_le_min le_rfl (goTrunc_mono _ _ hnn hstep)

/-- C5 counterexample: with a backoff factor of 1/2 the delay strictly
decreases from attempt 0 to attempt 1, and with `InitialDelay > MaxDelay`
the attempt-0 delay exceeds `MaxDelay` — refuting the frozen claim's
universal monotonicity and cap. -/
theorem calculateRetryDelay_monotone_counterexample :
    decreasingPolicy.CalculateRetryDelay 1 < decreasingPolicy.CalculateRetryDelay 0
    ∧ highInitialPolicy.MaxDelay < highInitialPolicy.CalculateRetryDelay 0 := by
  constructor
  · rw [calculateRetryDelay_pos decreasingPolicy 1 one_pos,
      calculateRetryDelay_nonpos decreasingPolicy 0 le_rfl]
    norm_num [decreasingPolicy, goTrunc, Rat.den_ofNat]
  · rw [calculateRetryDelay_nonpos highInitialPolicy 0 le_rfl]
    norm_num [highInitialPolicy]

/-- Witness for C5 at the default policy, attempts 2 and 3. -/
theorem calculateRetryDelay_monotone_witness :
    DefaultRetryPolicy.CalculateRetryDelay 0 = DefaultRetryPolicy.InitialDelay
    ∧ DefaultRetryPolicy.CalculateRetryDelay 2 ≤ DefaultRetryPolicy.MaxDelay
    ∧ DefaultRetryPolicy.CalculateRetryDelay 2 ≤ DefaultRetryPolicy.CalculateRetryDelay 3 := by
  have h := calculateRetryDelay_monotone DefaultRetryPolicy 2
    (by decide) (by decide) (by decide)
  exact ⟨h.1, h.2.1 (by decide), h.2.2 (by decide)⟩

/-! Claims about `executeTask` and the retry lineage (C3, C4, C6). -/

/-- C3: the claim states that the attempt count recorded in the terminal
result always equals the number of handler invocations, including on the
retry-queue-saturation path.  The code increments `task.AttemptCount` before
discovering the retry queue is full and then calls `sendResult`, which adds
one more: with a registered handler failing retryably on its single
invocation and the retry queue full, the emitted result records attempt
count 2 although the handler ran exactly once (and, incidentally, carries
`IsFinal = false`).  This contradicts the `AttemptCount` field's own
documentation (a count of attempts), so it is a bug in the code, not in the
claim. -/
theorem attemptCount_saturation_bug :
    (WorkerPool.runTask failingEmailPool (fun _ => true) 0 1 0 emailTask).map
      (fun p => (p.1.AttemptCount, p.2, p.1.IsFinal)) = some (2, 1, false) := by
  decide

/-- C4: the claim states that on retry-queue saturation the worker emits a
terminal failure result without blocking, marked as the terminal result.
The code does emit a failure result immediately (`Success = false`), but
passes `isFinal = false` to `sendResult`, so the result is NOT marked
terminal even though no further attempt of the task can ever happen — the
flag contradicts its own declared meaning ("whether this is the final
result"), a code bug on this path. -/
theorem queueSaturation_isFinal_bug :
    (emittedResult (failingEmailPool.executeTask true emailTask 0)).map
      (fun r => (r.Success, r.IsFinal)) = some (false, false) := by
  decide

/-- A non-empty signature whose first character differs from the message's
first character is not a prefix of it. -/
lemma not_prefix_of_head_ne (sig msg : GoStr) (hne : sig ≠ [])
    (h : sig.head? ≠ msg.head?) : ¬ sig <+: msg := by
  rintro ⟨t, ht⟩
  match sig, hne with
  | a :: s, _ =>
    rw [← ht] at h
    simp at h

/-- Every signature of every seeded policy (and of the default policy, used
for types missing from the table) comes from the master signature list. -/
lemma seeded_sigs_subset (tt : TaskType) (sig : GoStr)
    (h : sig ∈ ((TaskTypeRetryPolicies tt).getD DefaultRetryPolicy).RetryableErrors) :
    sig ∈ ["SMTP接続エラー".data, "データベース接続エラー".data,
           "context deadline exceeded".data, "データ不整合エラー".data] := by
  rw [TaskTypeRetryPolicies] at h
  split_ifs at h <;>
    simp only [Option.getD_some, Option.getD_none, DefaultRetryPolicy] at h <;>
    fin_cases h <;> decide

/-- C6 (amended): when no processor is registered for the task's category,
`executeTask` synthesizes the unregistered-category failure; whenever no
retryable signature of the effective policy prefix-matches the synthesized
message — which holds for every policy of the seeded table and the default
policy, whose signatures never start the synthesized message — the failure
is emitted as a terminal failed result (`Success = false`, `IsFinal = true`)
and the task is not routed to the retry queue.  The frozen claim's
"regardless of the category's retry policy" is refuted by the counterexample
below: a policy whose signature prefix-matches the synthesized message does
route the task to the retry queue. -/
theorem unregistered_terminal :
    (∀ (wp : WorkerPool) (task : Task) (workerID : Int) (full : Bool),
      wp.processors task.«Type» = none →
      (∀ sig ∈ (wp.effectivePolicy task.«Type»).RetryableErrors,
        ¬ sig <+: unregisteredMsg task.«Type») →
      wp.executeTask full task workerID =
        ExecOutcome.emit (WorkerPool.sendResult task
          (some (unregisteredMsg task.«Type»)) 0 0 workerID true))
    ∧ (∀ (wp : WorkerPool) (tt : TaskType) (sig : GoStr),
        wp.retryPolicies = TaskTypeRetryPolicies →
        sig ∈ (wp.effectivePolicy tt).RetryableErrors →
        ¬ sig <+: unregisteredMsg tt)
    ∧ (∀ (task : Task) (workerID : Int),
        (WorkerPool.sendResult task (some (unregisteredMsg task.«Type»)) 0 0 workerID true).Success = false
        ∧ (WorkerPool.sendResult task (some (unregisteredMsg task.«Type»)) 0 0 workerID true).IsFinal = true) := by
  refine ⟨?_, ?_, ?_⟩
  · intro wp task workerID full hnone hsig
    have hfalse : (wp.effectivePolicy task.«Type»).ShouldRetry
        (some (unregisteredMsg task.«Type»)) task.AttemptCount = false := by
      cases hsr : (wp.effectivePolicy task.«Type»).ShouldRetry
          (some (unregisteredMsg task.«Type»)) task.AttemptCount with
      | false => rfl
      | true =>
        obtain ⟨sig, hmem, -, hpre⟩ := shouldRetry_true_matches _ _ _ hsr
        exact absurd hpre (hsig sig hmem)
    simp [WorkerPool.executeTask, hnone, hfalse]
  · intro wp tt sig hpol hmem
    have hmsg : (unregisteredMsg tt).head? = some 'タ' := rfl
    rw [WorkerPool.effectivePolicy, hpol] at hmem
    have hsub := seeded_sigs_subset tt sig hmem
    have hchk : ∀ s ∈ ["SMTP接続エラー".data, "データベース接続エラー".data,
        "context deadline exceeded".data, "データ不整合エラー".data],
        s ≠ ([] : GoStr) ∧ s.head? ≠ some 'タ' := by decide
    refine not_prefix_of_head_ne _ _ (hchk sig hsub).1 ?_
    rw [hmsg]
    exact (hchk sig hsub).2
  · intro task workerID
    exact ⟨rfl, rfl⟩

/-- C6 counterexample: a task of a category with no registered processor,
under a policy whose retryable signature is the prefix "タスクタイプ" of the
synthesized message, is routed to the retry queue — the unregistered-category
failure is NOT always terminal under an arbitrary retry policy. -/
theorem unregistered_retried_counterexample :
    noProcessorPool.executeTask false strangeTask 0 =
      ExecOutcome.retryEnqueued
        { strangeTask with
          AttemptCount := 1
          LastError := some (unregisteredMsg "x".data) } := by
  decide

/-- Witness for C6: under the seeded policy table an unknown category with no
processor gets a terminal failed result. -/
theorem unregistered_terminal_witness :
    seededNoProcPool.executeTask false videoTask 5 =
      ExecOutcome.emit (WorkerPool.sendResult videoTask
        (some (unregisteredMsg videoTask.«Type»)) 0 0 5 true) := by
  exact unregistered_terminal.1 seededNoProcPool videoTask 5 false rfl (by decide)

/-! Claims about the statistics aggregator (C7, C8, C9). -/

/-- The source's `if x < cur { cur = x }` update is the binary minimum. -/
lemma if_lt_eq_min (x m : ℚ) : (if x < m then x else m) = min m x := by
  rcases lt_or_le x m with h | h
  · rw [if_pos h, min_eq_right h.le]
  · rw [if_neg (not_lt.mpr h), min_eq_left h]

/-- The source's `if x > cur { cur = x }` update is the binary maximum. -/
lemma if_gt_eq_max (x m : ℚ) : (if m < x then x else m) = max m x := by
  rcases lt_or_le m x with h | h
  · rw [if_pos h, max_eq_right h.le]
  · rw [if_neg (not_lt.mpr h), max_eq_left h]

/-- One update increments the global total. -/
lemma updateStats_TotalTasks (s : PoolStats) (r : TaskResult) :
    (Monitor.updateStats s r).TotalTasks = s.TotalTasks + 1 := rfl

/-- After the first result, one update folds the latency into the minimum. -/
lemma updateStats_MinTime (s : PoolStats) (r : TaskResult) (h : 1 ≤ s.TotalTasks) :
    (Monitor.updateStats s r).MinTime = min s.MinTime (timeMsOf r) := by
  have hne : ¬(s.TotalTasks + 1 = 1) := by omega
  simp only [Monitor.updateStats, hne, if_false]
  exact if_lt_eq_min _ _

/-- After the first result, one update folds the latency into the maximum. -/
lemma updateStats_MaxTime (s : PoolStats) (r : TaskResult) (h : 1 ≤ s.TotalTasks) :
    (Monitor.updateStats s r).MaxTime = max s.MaxTime (timeMsOf r) := by
  have hne : ¬(s.TotalTasks + 1 = 1) := by omega
  simp only [Monitor.updateStats, hne, if_false]
  exact if_gt_eq_max _ _

/-- Folding results into any aggregate that already saw one result takes the
running minimum of its minimum and all new latencies. -/
lemma foldl_MinTime (results : List TaskResult) :
    ∀ s : PoolStats, 1 ≤ s.TotalTasks →
      (results.foldl Monitor.updateStats s).MinTime =
        (results.map timeMsOf).foldl min s.MinTime := by
  induction results with
  | nil => intro s _; rfl
  | cons r rs ih =>
    intro s hs
    simp only [List.foldl_cons, List.map_cons]
    rw [ih _ (by rw [updateStats_TotalTasks]; omega), updateStats_MinTime s r hs]

/-- Folding results into any aggregate that already saw one result takes the
running maximum of its maximum and all new latencies. -/
lemma foldl_MaxTime (results : List TaskResult) :
    ∀ s : PoolStats, 1 ≤ s.TotalTasks →
      (results.foldl Monitor.updateStats s).MaxTime =
        (results.map timeMsOf).foldl max s.MaxTime := by
  induction results with
  | nil => intro s _; rfl
  | cons r rs ih =>
    intro s hs
    simp only [List.foldl_cons, List.map_cons]
    rw [ih _ (by rw [updateStats_TotalTasks]; omega), updateStats_MaxTime s r hs]

/-- C7: each update recomputes the running arithmetic mean exactly as
`newAvg = (oldAvg*(n-1) + x)/n` with `n` the post-update count of results
folded in, both globally and for the result's category (an exact running
mean, not an exponential moving average); and from a fresh monitor the
recorded min/max equal the running minimum/maximum of all observed
latencies. -/
theorem updateStats_running_mean :
    (∀ (stats : PoolStats) (result : TaskResult), 0 ≤ stats.TotalTasks →
      (Monitor.updateStats stats result).AverageTime =
        (stats.AverageTime * (((Monitor.updateStats stats result).TotalTasks : ℚ) - 1) +
            timeMsOf result) / ((Monitor.updateStats stats result).TotalTasks : ℚ))
    ∧ (∀ (stats : PoolStats) (result : TaskResult),
        0 ≤ (stats.TaskTypeStats result.TaskType).Total →
        ((Monitor.updateStats stats result).TaskTypeStats result.TaskType).AvgTime =
          ((stats.TaskTypeStats result.TaskType).AvgTime *
              ((((Monitor.updateStats stats result).TaskTypeStats result.TaskType).Total : ℚ) - 1) +
            timeMsOf result) /
            (((Monitor.updateStats stats result).TaskTypeStats result.TaskType).Total : ℚ))
    ∧ (∀ (result : TaskResult) (results : List TaskResult),
        (Monitor.foldStats (result :: results)).MinTime =
          (results.map timeMsOf).foldl min (timeMsOf result))
    ∧ (∀ (result : TaskResult) (results : List TaskResult),
        (Monitor.foldStats (result :: results)).MaxTime =
          (results.map timeMsOf).foldl max (timeMsOf result)) := by
  refine ⟨?_, ?_, ?_, ?_⟩
  · intro s r h
    rw [updateStats_TotalTasks]
    by_cases h1 : s.TotalTasks + 1 = 1
    · have hz : s.TotalTasks = 0 := by omega
      simp only [Monitor.updateStats, h1, if_true, hz]
      push_cast
      ring
    · simp only [Monitor.updateStats, h1, if_false]
      push_cast
      ring_nf
  · intro s r h
    have hcat : ((Monitor.updateStats s r).TaskTypeStats r.TaskType).Total =
        (s.TaskTypeStats r.TaskType).Total + 1 := by
      simp [Monitor.updateStats, Function.update_same]
    rw [hcat]
    by_cases h1 : (s.TaskTypeStats r.TaskType).Total + 1 = 1
    · have hz : (s.TaskTypeStats r.TaskType).Total = 0 := by omega
      simp only [Monitor.updateStats, Function.update_same, h1, if_true, hz]
      push_cast
      ring
    · simp only [Monitor.updateStats, Function.update_same, h1, if_false]
      push_cast
      ring_nf
  · intro r rs
    rw [Monitor.foldStats, List.foldl_cons,
      foldl_MinTime rs _ (by rw [updateStats_TotalTasks]; decide)]
    congr 1
  · intro r rs
    rw [Monitor.foldStats, List.foldl_cons,
      foldl_MaxTime rs _ (by rw [updateStats_TotalTasks]; decide)]
    congr 1

/-- Witness for C7: the running-mean equations instantiated at the fresh
aggregate and a concrete result. -/
theorem updateStats_running_mean_witness :
    (Monitor.updateStats initPoolStats sampleResult).AverageTime =
      (initPoolStats.AverageTime *
          (((Monitor.updateStats initPoolStats sampleResult).TotalTasks : ℚ) - 1) +
        timeMsOf sampleResult) /
        ((Monitor.updateStats initPoolStats sampleResult).TotalTasks : ℚ)
    ∧ ((Monitor.updateStats initPoolStats sampleResult).TaskTypeStats TaskTypeEmail).AvgTime =
      ((initPoolStats.TaskTypeStats TaskTypeEmail).AvgTime *
          ((((Monitor.updateStats initPoolStats sampleResult).TaskTypeStats TaskTypeEmail).Total : ℚ) - 1) +
        timeMsOf sampleResult) /
        (((Monitor.updateStats initPoolStats sampleResult).TaskTypeStats TaskTypeEmail).Total : ℚ) := by
  exact ⟨updateStats_running_mean.1 initPoolStats sampleResult (by decide),
    updateStats_running_mean.2.1 initPoolStats sampleResult (by decide)⟩

/-- The snapshot's freshly allocated map holds exactly the live map's
contents at the moment of the `GetStats` call. -/
lemma getStats_snapshot_contents (h : MapHeap) (live : PoolStatsRef) :
    (Monitor.GetStats h live).2.read (Monitor.GetStats h live).1.TaskTypeStats =
      h.read live.TaskTypeStats := by
  funext tt
  simp [Monitor.GetStats, MapHeap.alloc, MapHeap.read, List.getD]

/-- C8: from the zeroed aggregate, every sequence of `updateStats` calls
preserves `TotalTasks = CompletedTasks + FailedTasks` globally and
`Succeeded + Failed <= Total` for every category, and a `GetStats` snapshot
taken from a live aggregate satisfying the per-category inequality satisfies
it as well (its map holds the same key-value pairs). -/
theorem stats_count_invariant :
    (∀ results : List TaskResult,
      (Monitor.foldStats results).TotalTasks =
        (Monitor.foldStats results).CompletedTasks + (Monitor.foldStats results).FailedTasks)
    ∧ (∀ (results : List TaskResult) (tt : TaskType),
        ((Monitor.foldStats results).TaskTypeStats tt).Succeeded +
            ((Monitor.foldStats results).TaskTypeStats tt).Failed ≤
          ((Monitor.foldStats results).TaskTypeStats tt).Total)
    ∧ (∀ (h : MapHeap) (live : PoolStatsRef),
        (∀ tt, (h.read live.TaskTypeStats tt).Succeeded +
            (h.read live.TaskTypeStats tt).Failed ≤ (h.read live.TaskTypeStats tt).Total) →
        ∀ tt, ((Monitor.GetStats h live).2.read (Monitor.GetStats h live).1.TaskTypeStats tt).Succeeded +
            ((Monitor.GetStats h live).2.read (Monitor.GetStats h live).1.TaskTypeStats tt).Failed ≤
          ((Monitor.GetStats h live).2.read (Monitor.GetStats h live).1.TaskTypeStats tt).Total) := by
  have hgen : ∀ (results : List TaskResult) (s : PoolStats),
      s.TotalTasks = s.CompletedTasks + s.FailedTasks →
      (∀ tt, (s.TaskTypeStats tt).Succeeded + (s.TaskTypeStats tt).Failed ≤
        (s.TaskTypeStats tt).Total) →
      (results.foldl Monitor.updateStats s).TotalTasks =
          (results.foldl Monitor.updateStats s).CompletedTasks +
            (results.foldl Monitor.updateStats s).FailedTasks
        ∧ ∀ tt, ((results.foldl Monitor.updateStats s).TaskTypeStats tt).Succeeded +
              ((results.foldl Monitor.updateStats s).TaskTypeStats tt).Failed ≤
            ((results.foldl Monitor.updateStats s).TaskTypeStats tt).Total := by
    intro results
    induction results with
    | nil => intro s h1 h2; exact ⟨h1, h2⟩
    | cons r rs ih =>
      intro s h1 h2
      refine ih (Monitor.updateStats s r) ?_ ?_
      · simp only [Monitor.updateStats]
        rcases r.Success with _ | _ <;> simp <;> omega
      · intro tt
        by_cases htt : tt = r.TaskType
        · subst htt
          have h3 := h2 r.TaskType
          simp only [Monitor.updateStats, Function.update_same]
          rcases r.Success with _ | _ <;> simp <;> omega
        · simp only [Monitor.updateStats, Function.update_noteq htt]
          exact h2 tt
  refine ⟨?_, ?_, ?_⟩
  · intro results
    exact (hgen results initPoolStats rfl (fun _ => le_refl 0)).1
  · intro results
    exact (hgen results initPoolStats rfl (fun _ => le_refl 0)).2
  · intro h live hinv tt
    rw [getStats_snapshot_contents h live]
    exact hinv tt

/-- Witness for C8: the invariant after one concrete result, and the
snapshot inequality at a concrete heap and category. -/
theorem stats_count_invariant_witness :
    (Monitor.foldStats [sampleResult]).TotalTasks =
      (Monitor.foldStats [sampleResult]).CompletedTasks +
        (Monitor.foldStats [sampleResult]).FailedTasks
    ∧ ((Monitor.GetStats statsHeap0 liveStats0).2.read
          (Monitor.GetStats statsHeap0 liveStats0).1.TaskTypeStats TaskTypeEmail).Succeeded +
        ((Monitor.GetStats statsHeap0 liveStats0).2.read
          (Monitor.GetStats statsHeap0 liveStats0).1.TaskTypeStats TaskTypeEmail).Failed ≤
      ((Monitor.GetStats statsHeap0 liveStats0).2.read
        (Monitor.GetStats statsHeap0 liveStats0).1.TaskTypeStats TaskTypeEmail).Total := by
  exact ⟨stats_count_invariant.1 [sampleResult],
    stats_count_invariant.2.2 statsHeap0 liveStats0
      (fun _ => by show (0 : Int) + 0 ≤ 0; decide) TaskTypeEmail⟩

/-- Allocation leaves existing references readable unchanged. -/
lemma read_alloc_old (h : MapHeap) (m : TaskType → TaskTypeStats) (r : Nat)
    (hr : r < h.data.length) : (h.alloc m).2.read r = h.read r := by
  simp [MapHeap.alloc, MapHeap.read, List.getD, List.getElem?_append, hr]

/-- Writing through one reference does not change the map behind another. -/
lemma read_write_ne (h : MapHeap) (r r2 : Nat) (t : TaskType) (v : TaskTypeStats)
    (hne : r ≠ r2) : (h.write r t v).read r2 = h.read r2 := by
  simp [MapHeap.write, MapHeap.read, List.getD, List.getElem?_set_ne hne]

/-- C9: `GetStats` returns a copy whose per-category map is freshly
allocated and holds the same key-value pairs as the live map at the moment
of the call; the live map is left unchanged; the snapshot's reference is
distinct from the live one, so inserting or overwriting entries through the
snapshot leaves the live aggregate unchanged and vice versa; and the scalar
fields are copied. -/
theorem getStats_snapshot_isolation (h : MapHeap) (live : PoolStatsRef)
    (hvalid : live.TaskTypeStats < h.data.length) :
    (∀ tt, (Monitor.GetStats h live).2.read (Monitor.GetStats h live).1.TaskTypeStats tt =
        h.read live.TaskTypeStats tt)
    ∧ (Monitor.GetStats h live).2.read live.TaskTypeStats = h.read live.TaskTypeStats
    ∧ (Monitor.GetStats h live).1.TaskTypeStats ≠ live.TaskTypeStats
    ∧ (∀ (t : TaskType) (v : TaskTypeStats) (u : TaskType),
        ((Monitor.GetStats h live).2.write (Monitor.GetStats h live).1.TaskTypeStats t v).read
            live.TaskTypeStats u =
          (Monitor.GetStats h live).2.read live.TaskTypeStats u)
    ∧ (∀ (t : TaskType) (v : TaskTypeStats) (u : TaskType),
        ((Monitor.GetStats h live).2.write live.TaskTypeStats t v).read
            (Monitor.GetStats h live).1.TaskTypeStats u =
          (Monitor.GetStats h live).2.read (Monitor.GetStats h live).1.TaskTypeStats u)
    ∧ (Monitor.GetStats h live).1.TotalTasks = live.TotalTasks
    ∧ (Monitor.GetStats h live).1.CompletedTasks = live.CompletedTasks
    ∧ (Monitor.GetStats h live).1.FailedTasks = live.FailedTasks
    ∧ (Monitor.GetStats h live).1.AverageTime = live.AverageTime
    ∧ (Monitor.GetStats h live).1.MinTime = live.MinTime
    ∧ (Monitor.GetStats h live).1.MaxTime = live.MaxTime := by
  have hfresh : (Monitor.GetStats h live).1.TaskTypeStats = h.data.length := rfl
  have hne : (Monitor.GetStats h live).1.TaskTypeStats ≠ live.TaskTypeStats := by
    rw [hfresh]
    exact (Nat.ne_of_lt hvalid).symm
  refine ⟨fun tt => congrFun (getStats_snapshot_contents h live) tt, ?_, hne, ?_, ?_,
    rfl, rfl, rfl, rfl, rfl, rfl⟩
  · exact read_alloc_old h _ live.TaskTypeStats hvalid
  · intro t v u
    rw [read_write_ne _ _ _ _ _ hne]
  · intro t v u
    rw [read_write_ne _ _ _ _ _ (Ne.symm hne)]

/-- Witness for C9 at a concrete one-map heap: the snapshot reference is
fresh, its contents agree with the live map, and a scalar is copied. -/
theorem getStats_snapshot_isolation_witness :
    (Monitor.GetStats statsHeap0 liveStats0).1.TaskTypeStats ≠ liveStats0.TaskTypeStats
    ∧ (Monitor.GetStats statsHeap0 liveStats0).2.read
        (Monitor.GetStats statsHeap0 liveStats0).1.TaskTypeStats TaskTypeEmail =
      statsHeap0.read liveStats0.TaskTypeStats TaskTypeEmail
    ∧ (Monitor.GetStats statsHeap0 liveStats0).1.TotalTasks = liveStats0.TotalTasks := by
  exact ⟨(getStats_snapshot_isolation statsHeap0 liveStats0 (by decide)).2.2.1,
    (getStats_snapshot_isolation statsHeap0 liveStats0 (by decide)).1 TaskTypeEmail,
    (getStats_snapshot_isolation statsHeap0 liveStats0 (by decide)).2.2.2.2.2.1⟩

end Workerpool
